import Mathlib

/-!
Verification of the data-acquisition-and-graphing sample (`PyQtGraphing.py`):
the `SlidingWindow` buffer primitive, the two graph widgets that consume it,
the measurement worker loop, and the construction-time behaviour.

Embedding conventions:
* the numpy backing array is a `List α`; the uninitialised contents of
  `np.empty(buffer_size)` are an arbitrary list supplied at construction;
* numpy slice assignment `data[:copy_size] = data[-copy_size:]` is modelled
  with numpy's broadcasting rule: the assignment succeeds when the source
  length equals the destination length or the source length is 1, and raises
  `ValueError` ("could not broadcast ...") otherwise; `data[-0:]` is the whole
  array, exactly as in Python;
* fallible operations return `Except String`;
* wall-clock reads, float formatting and rendering calls are abstracted:
  the transformed plot series `(timestamp - now, value)` is parameterised by
  the subtraction operation and the current time.
-/

namespace PyQtGraphing

/-- State of the `SlidingWindow` class (`PyQtGraphing.py` lines 58-82):
`data` is the preallocated backing buffer, `n` the count of valid entries,
`window_size` the window length.  The run-time claims concern
`window_size ≥ 1`; construction-time validation is modelled separately over
`Int` (`slidingWindowNew`). -/
structure SlidingWindow (α : Type) where
  data : List α
  n : Nat
  window_size : Nat

/-- The freshly constructed buffer state: `self.data = np.empty(buffer_size)`
(contents `junk`, arbitrary), `self.n = 0`, `self.window_size = window_size`. -/
def SlidingWindow.mk0 (window_size : Nat) (junk : List α) : SlidingWindow α :=
  ⟨junk, 0, window_size⟩

/-- The compaction phase of `append` (lines 70-75): when the buffer is full
(`n == len(data)`) it executes `copy_size = window_size - 1;
data[:copy_size] = data[-copy_size:]; n = copy_size`, otherwise it leaves the
state unchanged.  The slice assignment follows numpy semantics: the source
`data[-copy_size:]` is the whole array when `copy_size = 0` (Python's `-0`),
otherwise the last `copy_size` entries; the destination `data[:copy_size]`
has length `min copy_size (len data)`; the assignment broadcasts a length-1
source across the destination and otherwise requires equal lengths, raising
`ValueError: could not broadcast ...` on a mismatch (nothing is mutated in
that case, the exception propagates out of `append`). -/
def SlidingWindow.compactIfFull (s : SlidingWindow α) (value : α) :
    Except String (SlidingWindow α) :=
  let b := s.data.length
  if s.n = b then
    let copy_size := s.window_size - 1
    let src := if copy_size = 0 then s.data else s.data.drop (b - copy_size)
    let dstLen := min copy_size b
    if src.length = dstLen then
      Except.ok ⟨src ++ s.data.drop dstLen, copy_size, s.window_size⟩
    else if src.length = 1 then
      Except.ok ⟨List.replicate dstLen (src.headD value) ++ s.data.drop dstLen,
        copy_size, s.window_size⟩
    else
      Except.error "could not broadcast input array"
  else
    Except.ok s

/-- `SlidingWindow.append` (lines 68-78): first the compaction phase when the
buffer is full, then the store `data[n] = value; n += 1` (an `IndexError` if
`n` were out of range). -/
def SlidingWindow.append (s : SlidingWindow α) (value : α) : Except String (SlidingWindow α) :=
  match s.compactIfFull value with
  | Except.error e => Except.error e
  | Except.ok t =>
    if t.n < t.data.length then
      Except.ok ⟨t.data.set t.n value, t.n + 1, t.window_size⟩
    else
      Except.error "IndexError"

/-- `SlidingWindow.window` (lines 80-82):
`return self.data[max(0, self.n - self.window_size):self.n]`. -/
def SlidingWindow.window (s : SlidingWindow α) : List α :=
  (s.data.take s.n).drop (s.n - s.window_size)

/-- `window()` as a state transformer: the method body is a single `return`
of a slice (line 82), it reads `self.data` and `self.n` and writes nothing,
so the post-state is the pre-state. -/
def SlidingWindow.windowOp (s : SlidingWindow α) : List α × SlidingWindow α :=
  (s.window, s)

/-- A sequence of `append` calls, stopping at the first raised exception. -/
def SlidingWindow.appendAll : SlidingWindow α → List α → Except String (SlidingWindow α)
  | s, [] => Except.ok s
  | s, x :: xs =>
    match s.append x with
    | Except.error e => Except.error e
    | Except.ok t => t.appendAll xs

/-- The compaction guard of `append` (line 70): the next `append` enters the
compaction branch exactly when `self.n == len(self.data)`. -/
def SlidingWindow.compactionPending (s : SlidingWindow α) : Bool :=
  s.n == s.data.length

/-- The last `k` elements of a list (all of it if `k` exceeds the length). -/
def lastN (l : List α) (k : Nat) : List α :=
  l.drop (l.length - k)

/-- Relation between a buffer state and the complete history of appended
values: the count is within the buffer and the history, the count lags the
history only after the window is full, and the first `n` buffer slots hold
the last `n` appended values in append order. -/
def SlidingWindow.Inv (s : SlidingWindow α) (hist : List α) : Prop :=
  s.n ≤ s.data.length ∧ s.n ≤ hist.length
  ∧ (s.n = hist.length ∨ s.window_size ≤ s.n)
  ∧ s.data.take s.n = lastN hist s.n

/-- The part of a buffer state that does not depend on the uninitialised
(`np.empty`) slots: the count, the window size, the capacity, and the valid
entries. -/
def SlidingWindow.stateAbs (s : SlidingWindow α) : Nat × Nat × Nat × List α :=
  (s.n, s.window_size, s.data.length, s.data.take s.n)

/-- `np.empty(size)`: raises `ValueError: negative dimensions are not allowed`
for a negative size, otherwise allocates a buffer of that length. -/
def npEmptySize (size : Int) : Except String Nat :=
  if size < 0 then Except.error "negative dimensions are not allowed"
  else Except.ok size.toNat

/-- `SlidingWindow.__init__` (lines 61-66) at the `Int` level (Python ints):
`if buffer_size is None: buffer_size = 10 * window_size`, then
`self.data = np.empty(buffer_size)`, `self.n = 0`,
`self.window_size = window_size`.  There is no validation of `window_size`.
Returns the allocated buffer length together with the stored window size. -/
def slidingWindowNew (window_size : Int) (buffer_size : Option Int) :
    Except String (Nat × Int) :=
  let bs := buffer_size.getD (10 * window_size)
  (npEmptySize bs).map (fun len => (len, window_size))

/-- State of `MatplotlibGraphWidget` (lines 85-139): the only sample-relevant
state is its own `SlidingWindow` of `(timestamp, value)` pairs
(`self.xy = SlidingWindow(sliding_window_size, xy_dtype)`, default buffer). -/
structure MatplotlibGraphWidget (α β : Type) where
  xy : SlidingWindow (α × β)

/-- `MatplotlibGraphWidget.__init__`: allocates its own sliding window. -/
def MatplotlibGraphWidget.init (sliding_window_size : Nat) (junk : List (α × β)) :
    MatplotlibGraphWidget α β :=
  ⟨SlidingWindow.mk0 sliding_window_size junk⟩

/-- `MatplotlibGraphWidget.handleMeasurement` (lines 112-116):
`self.xy.append((timestamp, value))` (the redraw that follows does not change
the buffer state). -/
def MatplotlibGraphWidget.handleMeasurement (g : MatplotlibGraphWidget α β)
    (timestamp : α) (value : β) : Except String (MatplotlibGraphWidget α β) :=
  (g.xy.append (timestamp, value)).map (fun sw => ⟨sw⟩)

/-- The series pushed to the plot surface by
`MatplotlibGraphWidget.updateGraph` (line 128):
`self.line2d.set_data(w["x"] - t_now, w["y"])`, i.e. each window entry
`(timestamp, value)` becomes `(timestamp - t_now, value)`; `sub` abstracts
float subtraction. -/
def MatplotlibGraphWidget.plotSeries (sub : α → α → α) (g : MatplotlibGraphWidget α β)
    (t_now : α) : List (α × β) :=
  g.xy.window.map (fun p => (sub p.1 t_now, p.2))

/-- Observable effect of `MatplotlibGraphWidget.updateGraph` (lines 118-139):
the series pushed to the plot line and the window title
`"matplotlib: {:.3f} ms"` (the formatted duration is abstracted as a string,
since it comes from wall-clock measurement). -/
def MatplotlibGraphWidget.updateGraph (sub : α → α → α) (g : MatplotlibGraphWidget α β)
    (t_now : α) (duration_str : String) : List (α × β) × String :=
  (g.plotSeries sub t_now, "matplotlib: " ++ duration_str ++ " ms")

/-- Sample delivery loop: each emitted sample is marshalled to the widget and
handled by `handleMeasurement`. -/
def MatplotlibGraphWidget.deliverAll :
    MatplotlibGraphWidget α β → List (α × β) → Except String (MatplotlibGraphWidget α β)
  | g, [] => Except.ok g
  | g, p :: ps =>
    match g.handleMeasurement p.1 p.2 with
    | Except.error e => Except.error e
    | Except.ok g' => g'.deliverAll ps

/-- State of `PyQtGraphWidget` (lines 142-187): its own `SlidingWindow` of
`(timestamp, value)` pairs, exactly as the Matplotlib widget. -/
structure PyQtGraphWidget (α β : Type) where
  xy : SlidingWindow (α × β)

/-- `PyQtGraphWidget.__init__`: allocates its own sliding window. -/
def PyQtGraphWidget.init (sliding_window_size : Nat) (junk : List (α × β)) :
    PyQtGraphWidget α β :=
  ⟨SlidingWindow.mk0 sliding_window_size junk⟩

/-- `PyQtGraphWidget.handleMeasurement` (lines 167-170):
`self.xy.append((timestamp, value))`. -/
def PyQtGraphWidget.handleMeasurement (g : PyQtGraphWidget α β)
    (timestamp : α) (value : β) : Except String (PyQtGraphWidget α β) :=
  (g.xy.append (timestamp, value)).map (fun sw => ⟨sw⟩)

/-- The series pushed by `PyQtGraphWidget.updateGraph` (line 181):
`self.plot.setData(w["x"] - t_now, w["y"])`. -/
def PyQtGraphWidget.plotSeries (sub : α → α → α) (g : PyQtGraphWidget α β)
    (t_now : α) : List (α × β) :=
  g.xy.window.map (fun p => (sub p.1 t_now, p.2))

/-- Observable effect of `PyQtGraphWidget.updateGraph` (lines 172-187). -/
def PyQtGraphWidget.updateGraph (sub : α → α → α) (g : PyQtGraphWidget α β)
    (t_now : α) (duration_str : String) : List (α × β) × String :=
  (g.plotSeries sub t_now, "pyqtgraph: " ++ duration_str ++ " ms")

/-- Sample delivery loop for the PyQtGraph widget. -/
def PyQtGraphWidget.deliverAll :
    PyQtGraphWidget α β → List (α × β) → Except String (PyQtGraphWidget α β)
  | g, [] => Except.ok g
  | g, p :: ps =>
    match g.handleMeasurement p.1 p.2 with
    | Except.error e => Except.error e
    | Except.ok g' => g'.deliverAll ps

/-- Control position of `MeasurementThread.run` (lines 52-55):
`check` is the `while not self.isInterruptionRequested()` test at the top of
each iteration, `emit` the signal emission, `sleeping` the
`time.sleep(self.measurement_interval)`, `done` the return of `run` (the
point after which `wait()` on the thread returns). -/
inductive WorkerPos
  | check
  | emit
  | sleeping
  | done
deriving DecidableEq

/-- Worker state: control position, the owner-settable interruption flag
(`requestInterruption` / `isInterruptionRequested`), and the number of
samples emitted so far. -/
structure WorkerState where
  pos : WorkerPos
  flag : Bool
  emitted : Nat

/-- One step of the worker thread: at `check` it tests the interruption flag
and either terminates or proceeds to emit; `emit` publishes one sample; after
sleeping it returns to the top-of-loop check; `done` is terminal. -/
def workerStep (s : WorkerState) : WorkerState :=
  match s.pos with
  | WorkerPos.check =>
    if s.flag then ⟨WorkerPos.done, s.flag, s.emitted⟩
    else ⟨WorkerPos.emit, s.flag, s.emitted⟩
  | WorkerPos.emit => ⟨WorkerPos.sleeping, s.flag, s.emitted + 1⟩
  | WorkerPos.sleeping => ⟨WorkerPos.check, s.flag, s.emitted⟩
  | WorkerPos.done => s

/-- Interleaved events: the owner setting the interruption flag
(`requestInterruption`, line 212) or the worker taking one step. -/
inductive WorkerEvent
  | setFlag
  | workerStep
deriving DecidableEq

/-- Apply one event to the worker state. -/
def stepEvent (s : WorkerState) : WorkerEvent → WorkerState
  | WorkerEvent.setFlag => ⟨s.pos, true, s.emitted⟩
  | WorkerEvent.workerStep => workerStep s

/-- Run a finite interleaving of owner and worker events. -/
def runEvents (s : WorkerState) : List WorkerEvent → WorkerState
  | [] => s
  | e :: es => runEvents (stepEvent s e) es

/-! ### List helper lemmas -/

theorem take_set_succ (l : List α) (n : Nat) (v : α) (h : n < l.length) :
    (l.set n v).take (n + 1) = l.take n ++ [v] := by
  rw [List.set_eq_take_cons_drop v h, List.take_append_eq_append_take, List.take_take]
  have h1 : (l.take n).length = n := by rw [List.length_take]; omega
  have h2 : min (n + 1) n = n := by omega
  have h3 : n + 1 - n = 1 := by omega
  rw [h1, h2, h3]
  simp

theorem lastN_snoc (l : List α) (v : α) (n : Nat) (h : n ≤ l.length) :
    lastN (l ++ [v]) (n + 1) = lastN l n ++ [v] := by
  unfold lastN
  have h1 : (l ++ [v]).length - (n + 1) = l.length - n := by
    simp only [List.length_append, List.length_singleton]; omega
  rw [h1, List.drop_append_eq_append_drop]
  have h2 : l.length - n - l.length = 0 := by omega
  rw [h2]
  rfl

theorem lastN_length (l : List α) (k : Nat) (h : k ≤ l.length) :
    (lastN l k).length = k := by
  unfold lastN
  rw [List.length_drop]
  omega

/-! ### Behaviour of `append` on its two main paths -/

/-- When the buffer is not yet full, `append` just stores the value. -/
theorem SlidingWindow.append_store (s : SlidingWindow α) (v : α)
    (h : s.n < s.data.length) :
    s.append v = Except.ok ⟨s.data.set s.n v, s.n + 1, s.window_size⟩ := by
  have hne : ¬ s.n = s.data.length := Nat.ne_of_lt h
  have hc : s.compactIfFull v = Except.ok s := by
    simp only [SlidingWindow.compactIfFull, if_neg hne]
  simp only [SlidingWindow.append, hc]
  rw [if_pos h]

/-- When the buffer is full and `window_size ≥ 2`, `append` compacts (copies
the last `window_size - 1` entries to the front, resets `n`) and stores. -/
theorem SlidingWindow.append_compact (s : SlidingWindow α) (v : α)
    (hfull : s.n = s.data.length) (hw : 2 ≤ s.window_size)
    (hwb : s.window_size ≤ s.data.length) :
    s.append v = Except.ok
      ⟨(s.data.drop (s.data.length - (s.window_size - 1)) ++
          s.data.drop (s.window_size - 1)).set (s.window_size - 1) v,
        s.window_size, s.window_size⟩ := by
  have hcs : ¬ s.window_size - 1 = 0 := by omega
  have hsrclen : (s.data.drop (s.data.length - (s.window_size - 1))).length
      = s.window_size - 1 := by
    rw [List.length_drop]; omega
  have hdst : min (s.window_size - 1) s.data.length = s.window_size - 1 := by omega
  have hc : s.compactIfFull v = Except.ok
      ⟨s.data.drop (s.data.length - (s.window_size - 1)) ++
        s.data.drop (s.window_size - 1), s.window_size - 1, s.window_size⟩ := by
    simp only [SlidingWindow.compactIfFull, if_pos hfull, if_neg hcs, hdst, hsrclen,
      if_pos rfl, eq_self_iff_true, if_true]
  simp only [SlidingWindow.append, hc]
  have hlen : (s.data.drop (s.data.length - (s.window_size - 1)) ++
      s.data.drop (s.window_size - 1)).length = s.data.length := by
    rw [List.length_append, hsrclen, List.length_drop]; omega
  rw [if_pos (by rw [hlen]; omega : s.window_size - 1 <
    (s.data.drop (s.data.length - (s.window_size - 1)) ++
      s.data.drop (s.window_size - 1)).length)]
  have : s.window_size - 1 + 1 = s.window_size := by omega
  rw [this]

/-- An append from an (unreachable) over-full state raises `IndexError`. -/
theorem SlidingWindow.append_oob (s : SlidingWindow α) (v : α)
    (h : s.data.length < s.n) :
    s.append v = Except.error "IndexError" := by
  have hne : ¬ s.n = s.data.length := by omega
  have hc : s.compactIfFull v = Except.ok s := by
    simp only [SlidingWindow.compactIfFull, if_neg hne]
  simp only [SlidingWindow.append, hc]
  rw [if_neg (by omega : ¬ s.n < s.data.length)]

/-- Whatever the compaction phase does, a successful outcome keeps the buffer
capacity and the window size. -/
theorem SlidingWindow.compactIfFull_spec (s t : SlidingWindow α) (v : α)
    (h : s.compactIfFull v = Except.ok t) :
    t.data.length = s.data.length ∧ t.window_size = s.window_size := by
  simp only [SlidingWindow.compactIfFull] at h
  split at h
  · -- buffer full: the source is either the whole array (copy_size = 0) or a
    -- tail slice; in each case the assignment either matches exactly,
    -- broadcasts, or fails, and every successful outcome keeps the length.
    split at h <;> split at h
    · injection h with ht
      subst ht
      refine ⟨?_, rfl⟩
      rw [List.length_append, List.length_drop]
      omega
    · split at h
      · injection h with ht
        subst ht
        refine ⟨?_, rfl⟩
        rw [List.length_append, List.length_replicate, List.length_drop]
        have hmr := Nat.min_le_right (s.window_size - 1) s.data.length
        omega
      · exact Except.noConfusion h
    · injection h with ht
      subst ht
      refine ⟨?_, rfl⟩
      rename_i hc0 hlen1
      rw [List.length_drop] at hlen1
      rw [List.length_append, List.length_drop, List.length_drop]
      omega
    · split at h
      · injection h with ht
        subst ht
        refine ⟨?_, rfl⟩
        rw [List.length_append, List.length_replicate, List.length_drop]
        have hmr := Nat.min_le_right (s.window_size - 1) s.data.length
        omega
      · exact Except.noConfusion h
  · injection h with ht
    subst ht
    exact ⟨rfl, rfl⟩

/-- Full buffer with `window_size = 1` and `buffer_size = 1`: the source
`data[-0:]` has length 1 and broadcasts into the empty destination as a
no-op, so the append succeeds by overwriting the single slot. -/
theorem SlidingWindow.append_full_w1 (s : SlidingWindow α) (v : α)
    (hfull : s.n = s.data.length) (hw1 : s.window_size = 1)
    (hb1 : s.data.length = 1) :
    s.append v = Except.ok ⟨s.data.set 0 v, 1, 1⟩ := by
  have hb0 : ¬ s.data.length = 0 := by omega
  have hc : s.compactIfFull v = Except.ok ⟨s.data, 0, 1⟩ := by
    simp only [SlidingWindow.compactIfFull, if_pos hfull, hw1, Nat.sub_self,
      eq_self_iff_true, if_true, Nat.zero_min, if_neg hb0, if_pos hb1,
      List.replicate_zero, List.drop_zero, List.nil_append]
  simp only [SlidingWindow.append, hc]
  rw [if_pos (by omega : (0 : Nat) < s.data.length)]

/-- Full buffer with `window_size = 1`: a successful append forces the buffer
capacity to be 1 — for any larger buffer the broadcast fails. -/
theorem SlidingWindow.append_full_w1_shape (s s' : SlidingWindow α) (v : α)
    (hfull : s.n = s.data.length) (hw1 : s.window_size = 1)
    (hb : 1 ≤ s.data.length)
    (hok : s.append v = Except.ok s') : s.data.length = 1 := by
  by_contra hb1
  have hb0 : ¬ s.data.length = 0 := by omega
  have hc : s.compactIfFull v = Except.error "could not broadcast input array" := by
    simp only [SlidingWindow.compactIfFull, if_pos hfull, hw1, Nat.sub_self,
      eq_self_iff_true, if_true, Nat.zero_min, if_neg hb0, if_neg hb1]
  simp only [SlidingWindow.append, hc] at hok
  exact Except.noConfusion hok

/-- A successful `append` preserves the history invariant: the value is
recorded at the end of the valid region, compaction only discards entries
that have already slid out of every future window. -/
theorem SlidingWindow.append_inv (s s' : SlidingWindow α) (v : α) (hist : List α)
    (hw : 1 ≤ s.window_size) (hwb : s.window_size ≤ s.data.length)
    (hinv : s.Inv hist) (hok : s.append v = Except.ok s') :
    s'.Inv (hist ++ [v]) ∧ s'.data.length = s.data.length
      ∧ s'.window_size = s.window_size := by
  obtain ⟨hnb, hnh, hdisj, htake⟩ := hinv
  by_cases hfull : s.n = s.data.length
  · by_cases hw2 : 2 ≤ s.window_size
    · -- genuine compaction
      rw [SlidingWindow.append_compact s v hfull hw2 hwb] at hok
      injection hok with hs
      subst hs
      have hD : (s.data.drop (s.data.length - (s.window_size - 1)) ++
          s.data.drop (s.window_size - 1)).length = s.data.length := by
        rw [List.length_append, List.length_drop, List.length_drop]
        omega
      have hdata : s.data = lastN hist s.data.length := by
        have h1 := htake
        rw [hfull, List.take_length] at h1
        exact h1
      have hsrc : s.data.drop (s.data.length - (s.window_size - 1))
          = lastN hist (s.window_size - 1) := by
        have h1 : s.data.drop (s.data.length - (s.window_size - 1))
            = (lastN hist s.data.length).drop (s.data.length - (s.window_size - 1)) :=
          congrArg (fun l => l.drop (s.data.length - (s.window_size - 1))) hdata
        rw [h1]
        unfold lastN
        rw [List.drop_drop]
        congr 1
        omega
      have hcs1 : s.window_size - 1 + 1 = s.window_size := by omega
      refine ⟨⟨?_, ?_, Or.inr (Nat.le_refl _), ?_⟩, ?_, rfl⟩ <;> dsimp only
      · rw [List.length_set, hD]
        exact hwb
      · rw [List.length_append, List.length_singleton]
        omega
      · -- the valid region after compaction + store
        show ((s.data.drop (s.data.length - (s.window_size - 1)) ++
            s.data.drop (s.window_size - 1)).set (s.window_size - 1) v).take s.window_size
          = lastN (hist ++ [v]) s.window_size
        have hcslt : s.window_size - 1 <
            (s.data.drop (s.data.length - (s.window_size - 1)) ++
              s.data.drop (s.window_size - 1)).length := by
          rw [hD]; omega
        have h2 := take_set_succ _ (s.window_size - 1) v hcslt
        rw [hcs1] at h2
        rw [h2]
        have h3 : (s.data.drop (s.data.length - (s.window_size - 1)) ++
            s.data.drop (s.window_size - 1)).take (s.window_size - 1)
            = s.data.drop (s.data.length - (s.window_size - 1)) := by
          have hsl : (s.data.drop (s.data.length - (s.window_size - 1))).length
              = s.window_size - 1 := by
            rw [List.length_drop]; omega
          rw [List.take_append_eq_append_take, hsl, Nat.sub_self, List.take_zero,
            List.append_nil]
          exact List.take_of_length_le (Nat.le_of_eq hsl)
        rw [h3, hsrc]
        have h4 := lastN_snoc hist v (s.window_size - 1) (by omega)
        rw [hcs1] at h4
        exact h4.symm
      · rw [List.length_set, hD]
    · -- window_size = 1: the append succeeded, which forces buffer_size = 1
      have hw1 : s.window_size = 1 := by omega
      have hb1 : s.data.length = 1 :=
        SlidingWindow.append_full_w1_shape s s' v hfull hw1 (by omega) hok
      rw [SlidingWindow.append_full_w1 s v hfull hw1 hb1] at hok
      injection hok with hs
      subst hs
      refine ⟨⟨?_, ?_, Or.inr (Nat.le_refl _), ?_⟩, ?_, hw1.symm⟩ <;> dsimp only
      · rw [List.length_set, hb1]
      · rw [List.length_append, List.length_singleton]
        omega
      · show (s.data.set 0 v).take 1 = lastN (hist ++ [v]) 1
        have ht1 : (s.data.set 0 v).take 1 = [v] := by
          have := take_set_succ s.data 0 v (by omega)
          simpa using this
        have ht2 : lastN (hist ++ [v]) 1 = [v] := by
          have := lastN_snoc hist v 0 (Nat.zero_le _)
          simp [lastN, List.drop_length]
        rw [ht1, ht2]
      · rw [List.length_set, hb1]
  · -- plain store
    have hlt : s.n < s.data.length := by omega
    rw [SlidingWindow.append_store s v hlt] at hok
    injection hok with hs
    subst hs
    refine ⟨⟨?_, ?_, ?_, ?_⟩, ?_, rfl⟩ <;> dsimp only
    · rw [List.length_set]
      omega
    · rw [List.length_append, List.length_singleton]
      omega
    · rcases hdisj with hd | hd
      · refine Or.inl ?_
        rw [List.length_append, List.length_singleton]
        omega
      · exact Or.inr (by omega)
    · show (s.data.set s.n v).take (s.n + 1) = lastN (hist ++ [v]) (s.n + 1)
      rw [take_set_succ s.data s.n v hlt, htake, lastN_snoc hist v s.n hnh]
    · rw [List.length_set]

/-- The history invariant along any successful run of appends. -/
theorem SlidingWindow.appendAll_inv (xs : List α) (s s' : SlidingWindow α) (hist : List α)
    (hw : 1 ≤ s.window_size) (hwb : s.window_size ≤ s.data.length)
    (hinv : s.Inv hist) (hok : s.appendAll xs = Except.ok s') :
    s'.Inv (hist ++ xs) ∧ s'.data.length = s.data.length
      ∧ s'.window_size = s.window_size := by
  induction xs generalizing s hist with
  | nil =>
    simp only [SlidingWindow.appendAll] at hok
    injection hok with hs
    subst hs
    rw [List.append_nil]
    exact ⟨hinv, rfl, rfl⟩
  | cons x xs ih =>
    simp only [SlidingWindow.appendAll] at hok
    cases hmid : s.append x with
    | error e =>
      rw [hmid] at hok
      exact Except.noConfusion hok
    | ok t =>
      rw [hmid] at hok
      obtain ⟨hinv', hlen', hwsz'⟩ := SlidingWindow.append_inv s t x hist hw hwb hinv hmid
      obtain ⟨h1, h2, h3⟩ := ih t (hist ++ [x]) (by rw [hwsz']; exact hw)
        (by rw [hwsz', hlen']; exact hwb) hinv' hok
      rw [List.append_assoc, List.singleton_append] at h1
      exact ⟨h1, by rw [h2, hlen'], by rw [h3, hwsz']⟩

/-- A run of appends that never fills the buffer just stores every value,
incrementing the count each time. -/
theorem SlidingWindow.appendAll_stores (xs : List α) (s : SlidingWindow α)
    (h : s.n + xs.length ≤ s.data.length) :
    ∃ s', s.appendAll xs = Except.ok s'
      ∧ s'.n = s.n + xs.length ∧ s'.data.length = s.data.length
      ∧ s'.window_size = s.window_size := by
  induction xs generalizing s with
  | nil => exact ⟨s, rfl, by simp, rfl, rfl⟩
  | cons x xs ih =>
    rw [List.length_cons] at h
    have hlt : s.n < s.data.length := by omega
    obtain ⟨s', h1, h2, h3, h4⟩ := ih ⟨s.data.set s.n x, s.n + 1, s.window_size⟩
      (by dsimp only; rw [List.length_set]; omega)
    refine ⟨s', ?_, ?_, ?_, ?_⟩
    · simp only [SlidingWindow.appendAll, SlidingWindow.append_store s x hlt]
      exact h1
    · dsimp only at h2
      rw [List.length_cons]
      omega
    · dsimp only at h3
      rw [h3, List.length_set]
    · exact h4

/-- `append` treats two states with the same count, window size, capacity and
valid entries identically: the uninitialised slots never influence the
outcome (up to those same observables). -/
theorem SlidingWindow.append_congr (s1 s2 : SlidingWindow α) (v : α)
    (h : s1.stateAbs = s2.stateAbs) :
    (s1.append v).map SlidingWindow.stateAbs = (s2.append v).map SlidingWindow.stateAbs := by
  have hn : s1.n = s2.n :=
    congrArg (fun p : Nat × Nat × Nat × List α => p.1) h
  have hw : s1.window_size = s2.window_size :=
    congrArg (fun p : Nat × Nat × Nat × List α => p.2.1) h
  have hb : s1.data.length = s2.data.length :=
    congrArg (fun p : Nat × Nat × Nat × List α => p.2.2.1) h
  have ht : s1.data.take s1.n = s2.data.take s2.n :=
    congrArg (fun p : Nat × Nat × Nat × List α => p.2.2.2) h
  rcases Nat.lt_trichotomy s1.n s1.data.length with hlt | heq | hgt
  · -- plain store: only the valid prefix is involved
    have hlt2 : s2.n < s2.data.length := by omega
    rw [SlidingWindow.append_store s1 v hlt, SlidingWindow.append_store s2 v hlt2]
    simp only [Except.map, SlidingWindow.stateAbs, Except.ok.injEq, Prod.mk.injEq]
    refine ⟨by rw [hn], by rw [hw], ?_, ?_⟩
    · rw [List.length_set, List.length_set, hb]
    · rw [take_set_succ s1.data s1.n v hlt, take_set_succ s2.data s2.n v hlt2, ht]
  · -- full buffer: the whole array is valid, so the two states coincide
    have heq2 : s2.n = s2.data.length := by omega
    have hdata : s1.data = s2.data := by
      have h1 := ht
      rw [heq, List.take_length] at h1
      rw [heq2, List.take_length] at h1
      exact h1
    have hs : s1 = s2 := by
      obtain ⟨d1, n1, w1⟩ := s1
      obtain ⟨d2, n2, w2⟩ := s2
      dsimp only at hn hw hdata
      rw [hn, hw, hdata]
    rw [hs]
  · -- out of range: both raise IndexError
    rw [SlidingWindow.append_oob s1 v hgt, SlidingWindow.append_oob s2 v (by omega)]

/-- `appendAll` congruence over the observable part of the state. -/
theorem SlidingWindow.appendAll_congr (xs : List α) (s1 s2 : SlidingWindow α)
    (h : s1.stateAbs = s2.stateAbs) :
    (s1.appendAll xs).map SlidingWindow.stateAbs
      = (s2.appendAll xs).map SlidingWindow.stateAbs := by
  induction xs generalizing s1 s2 with
  | nil =>
    simp only [SlidingWindow.appendAll, Except.map]
    rw [h]
  | cons x xs ih =>
    have hstep := SlidingWindow.append_congr s1 s2 x h
    cases h1 : s1.append x with
    | error e =>
      cases h2 : s2.append x with
      | error e2 =>
        rw [h1, h2] at hstep
        simp only [Except.map] at hstep
        simp only [SlidingWindow.appendAll, h1, h2, Except.map]
        exact hstep
      | ok t2 =>
        rw [h1, h2] at hstep
        simp only [Except.map] at hstep
        exact Except.noConfusion hstep
    | ok t1 =>
      cases h2 : s2.append x with
      | error e2 =>
        rw [h1, h2] at hstep
        simp only [Except.map] at hstep
        exact Except.noConfusion hstep
      | ok t2 =>
        rw [h1, h2] at hstep
        simp only [Except.map, Except.ok.injEq] at hstep
        simp only [SlidingWindow.appendAll, h1, h2]
        exact ih t1 t2 hstep

/-- The window is determined by the observable part of the state. -/
theorem SlidingWindow.window_congr (s1 s2 : SlidingWindow α)
    (h : s1.stateAbs = s2.stateAbs) : s1.window = s2.window := by
  have hn : s1.n = s2.n :=
    congrArg (fun p : Nat × Nat × Nat × List α => p.1) h
  have hw : s1.window_size = s2.window_size :=
    congrArg (fun p : Nat × Nat × Nat × List α => p.2.1) h
  have ht : s1.data.take s1.n = s2.data.take s2.n :=
    congrArg (fun p : Nat × Nat × Nat × List α => p.2.2.2) h
  unfold SlidingWindow.window
  rw [ht, hn, hw]

/-- Delivering samples to the Matplotlib widget is exactly a run of appends
on its sliding window. -/
theorem MatplotlibGraphWidget.deliverAll_eq_appendAll_mpl (g : MatplotlibGraphWidget α β)
    (ps : List (α × β)) :
    g.deliverAll ps = (g.xy.appendAll ps).map
      (fun sw => (⟨sw⟩ : MatplotlibGraphWidget α β)) := by
  induction ps generalizing g with
  | nil => rfl
  | cons p ps ih =>
    simp only [MatplotlibGraphWidget.deliverAll, MatplotlibGraphWidget.handleMeasurement,
      SlidingWindow.appendAll]
    cases hp : g.xy.append p with
    | error e => rfl
    | ok t => exact ih ⟨t⟩

/-- Delivering samples to the PyQtGraph widget is exactly a run of appends
on its sliding window. -/
theorem PyQtGraphWidget.deliverAll_eq_appendAll_pg (g : PyQtGraphWidget α β)
    (ps : List (α × β)) :
    g.deliverAll ps = (g.xy.appendAll ps).map
      (fun sw => (⟨sw⟩ : PyQtGraphWidget α β)) := by
  induction ps generalizing g with
  | nil => rfl
  | cons p ps ih =>
    simp only [PyQtGraphWidget.deliverAll, PyQtGraphWidget.handleMeasurement,
      SlidingWindow.appendAll]
    cases hp : g.xy.append p with
    | error e => rfl
    | ok t => exact ih ⟨t⟩

/-! ### Worker-loop lemmas -/

/-- The worker never changes the interruption flag, so once the owner has set
it, it stays set along any interleaving. -/
theorem runEvents_flag (evs : List WorkerEvent) (s : WorkerState) (h : s.flag = true) :
    (runEvents s evs).flag = true := by
  induction evs generalizing s with
  | nil => exact h
  | cons e es ih =>
    cases e with
    | setFlag => exact ih ⟨s.pos, true, s.emitted⟩ rfl
    | workerStep =>
      obtain ⟨pos, flag, em⟩ := s
      have hf : flag = true := h
      subst hf
      cases pos <;> exact ih _ rfl

/-- Once the flag is set, the number of samples the worker can still emit is
bounded by 1, and only when it is currently at the emission statement. -/
theorem runEvents_emitted_bound (evs : List WorkerEvent) (s : WorkerState)
    (h : s.flag = true) :
    (runEvents s evs).emitted ≤ s.emitted +
      (if s.pos = WorkerPos.emit then 1 else 0) := by
  induction evs generalizing s with
  | nil => simp [runEvents]
  | cons e es ih =>
    cases e with
    | setFlag =>
      simpa [runEvents, stepEvent] using ih ⟨s.pos, true, s.emitted⟩ rfl
    | workerStep =>
      obtain ⟨pos, flag, em⟩ := s
      have hf : flag = true := h
      subst hf
      cases pos with
      | check =>
        have hih := ih ⟨WorkerPos.done, true, em⟩ rfl
        simp [runEvents, stepEvent, workerStep] at hih ⊢
        omega
      | emit =>
        have hih := ih ⟨WorkerPos.sleeping, true, em + 1⟩ rfl
        simp [runEvents, stepEvent, workerStep] at hih ⊢
        omega
      | sleeping =>
        have hih := ih ⟨WorkerPos.check, true, em⟩ rfl
        simp [runEvents, stepEvent, workerStep] at hih ⊢
        omega
      | done =>
        have hih := ih ⟨WorkerPos.done, true, em⟩ rfl
        simp [runEvents, stepEvent, workerStep] at hih ⊢
        omega

/-- The terminated position is absorbing: after `run` has returned, no event
re-enters the loop and no further sample is emitted. -/
theorem runEvents_done (evs : List WorkerEvent) (s : WorkerState)
    (h : s.pos = WorkerPos.done) :
    (runEvents s evs).pos = WorkerPos.done ∧ (runEvents s evs).emitted = s.emitted := by
  induction evs generalizing s with
  | nil => exact ⟨h, rfl⟩
  | cons e es ih =>
    cases e with
    | setFlag => exact ih ⟨s.pos, true, s.emitted⟩ h
    | workerStep =>
      obtain ⟨pos, flag, em⟩ := s
      have hp : pos = WorkerPos.done := h
      subst hp
      exact ih ⟨WorkerPos.done, flag, em⟩ rfl

/-! ### Claim theorems -/

/-- C1: for every SlidingWindow built with `window_size = w ≥ 1` over a
buffer of capacity at least `w` (the default capacity is `10 * w`) and with
arbitrary uninitialised buffer contents, every completed sequence of `N`
appended values leaves `window()` with exactly `min N w` entries, equal to
the last `min N w` appended values in append order (oldest first); in
particular `window()` is empty when `N = 0`. -/
theorem sliding_window_returns_last_min_entries (w : Nat) (junk xs : List α)
    (s' : SlidingWindow α) (hw : 1 ≤ w) (hwb : w ≤ junk.length)
    (hok : (SlidingWindow.mk0 w junk).appendAll xs = Except.ok s') :
    s'.window.length = min xs.length w
    ∧ s'.window = lastN xs (min xs.length w) := by
  have hinv0 : (SlidingWindow.mk0 w junk).Inv [] :=
    ⟨Nat.zero_le _, Nat.le_refl 0, Or.inl rfl, rfl⟩
  obtain ⟨⟨hnb, hnh, hdisj, htake⟩, hlen, hwsz⟩ :=
    SlidingWindow.appendAll_inv xs (SlidingWindow.mk0 w junk) s' [] hw hwb hinv0 hok
  rw [List.nil_append] at hnh hdisj htake
  simp only [SlidingWindow.mk0] at hlen hwsz
  have hmin : min s'.n w = min xs.length w := by
    rcases hdisj with hd | hd
    · rw [hd]
    · rw [hwsz] at hd
      omega
  have hwin : s'.window = lastN xs (min xs.length w) := by
    unfold SlidingWindow.window
    rw [htake, hwsz]
    unfold lastN
    rw [List.drop_drop]
    congr 1
    omega
  refine ⟨?_, hwin⟩
  rw [hwin]
  exact lastN_length xs _ (by omega)

/-- C1, witness: `window_size = 2`, `buffer_size = 4`, five appends (one
compaction occurred); the window is the last two values in order. -/
theorem sliding_window_returns_last_min_entries_instance :
    (SlidingWindow.window (⟨[4, 5, 3, 4], 2, 2⟩ : SlidingWindow Int)).length
      = min ([1, 2, 3, 4, 5] : List Int).length 2
    ∧ (⟨[4, 5, 3, 4], 2, 2⟩ : SlidingWindow Int).window
      = lastN ([1, 2, 3, 4, 5] : List Int) (min ([1, 2, 3, 4, 5] : List Int).length 2) :=
  sliding_window_returns_last_min_entries 2 [7, 7, 7, 7] [1, 2, 3, 4, 5]
    ⟨[4, 5, 3, 4], 2, 2⟩ (by decide) (by decide) rfl

/-- C3: compactions are `buffer_size - window_size` appends apart: from the
state right after a compacting append (`n = window_size`), a run of
`j ≤ buffer_size - window_size` further appends succeeds with no compaction
(the count just grows to `window_size + j`), and the compaction guard
`n == buffer_size` is reached again exactly when `j = buffer_size -
window_size` — the next append then compacts, so exactly
`buffer_size - window_size` appends take place strictly between two
consecutive compactions. -/
theorem compaction_period (s : SlidingWindow α) (vs : List α)
    (_hw : 1 ≤ s.window_size) (hwb : s.window_size ≤ s.data.length)
    (hn : s.n = s.window_size)
    (hlen : vs.length ≤ s.data.length - s.window_size) :
    ∃ s', s.appendAll vs = Except.ok s'
      ∧ s'.n = s.window_size + vs.length
      ∧ (s'.compactionPending = true ↔ vs.length = s.data.length - s.window_size) := by
  obtain ⟨s', h1, h2, h3, h4⟩ := SlidingWindow.appendAll_stores vs s (by omega)
  refine ⟨s', h1, by omega, ?_⟩
  unfold SlidingWindow.compactionPending
  rw [h2, h3, hn]
  simp only [beq_iff_eq]
  omega

/-- C3, witness: `window_size = 2`, `buffer_size = 4`, starting right after a
compaction (`n = 2`); after `4 - 2 = 2` further appends the guard is
reached. -/
theorem compaction_period_instance :
    ∃ s', (⟨[1, 2, 3, 4], 2, 2⟩ : SlidingWindow Int).appendAll [9, 9] = Except.ok s'
      ∧ s'.n = 2 + ([9, 9] : List Int).length
      ∧ (s'.compactionPending = true
          ↔ ([9, 9] : List Int).length = ([1, 2, 3, 4] : List Int).length - 2) :=
  compaction_period ⟨[1, 2, 3, 4], 2, 2⟩ [9, 9] (by decide) (by decide) rfl (by decide)

/-- C6: every completed append keeps `0 ≤ n ≤ buffer_size` and leaves the
capacity of the preallocated buffer unchanged, and `window()` does not modify
the state at all — the buffer never shrinks and never grows. -/
theorem append_preserves_count_invariant_and_capacity (s s' : SlidingWindow α) (v : α)
    (h : s.append v = Except.ok s') :
    s'.n ≤ s'.data.length ∧ s'.data.length = s.data.length ∧ s.windowOp.2 = s := by
  cases hc : s.compactIfFull v with
  | error e =>
    simp only [SlidingWindow.append, hc] at h
    exact Except.noConfusion h
  | ok t =>
    simp only [SlidingWindow.append, hc] at h
    by_cases hlt : t.n < t.data.length
    · rw [if_pos hlt] at h
      injection h with hs
      subst hs
      obtain ⟨hl, hwz⟩ := SlidingWindow.compactIfFull_spec s t v hc
      refine ⟨?_, ?_, rfl⟩
      · dsimp only
        rw [List.length_set]
        omega
      · dsimp only
        rw [List.length_set]
        exact hl
    · rw [if_neg hlt] at h
      exact Except.noConfusion h

/-- C6, witness: a plain store into a buffer of capacity 3. -/
theorem append_preserves_count_invariant_and_capacity_instance :
    (⟨[8, 9, 7], 3, 2⟩ : SlidingWindow Int).n ≤ (⟨[8, 9, 7], 3, 2⟩ : SlidingWindow Int).data.length
    ∧ (⟨[8, 9, 7], 3, 2⟩ : SlidingWindow Int).data.length
      = (⟨[8, 9, 1], 2, 2⟩ : SlidingWindow Int).data.length
    ∧ (⟨[8, 9, 1], 2, 2⟩ : SlidingWindow Int).windowOp.2 = ⟨[8, 9, 1], 2, 2⟩ :=
  append_preserves_count_invariant_and_capacity ⟨[8, 9, 1], 2, 2⟩ ⟨[8, 9, 7], 3, 2⟩ 7 rfl

/-- C8: the two GraphView implementations are equivalent at the contract
level: fed the same sequence of samples (each with its own independently
allocated buffer of the same capacity, uninitialised contents arbitrary), a
MatplotlibGraphWidget and a PyQtGraphWidget either both fail identically or
both succeed holding the same count `n` and the same stored entries, and —
given the same current time — both compute the same transformed
`(timestamp - now, value)` plot series from their windows. -/
theorem graph_widgets_equivalent (w : Nat) (junk1 junk2 : List (α × β))
    (sub : α → α → α) (samples : List (α × β)) (t_now : α)
    (hlen : junk1.length = junk2.length) :
    ((MatplotlibGraphWidget.init w junk1).deliverAll samples).map
        (fun g => (g.xy.n, g.xy.data.take g.xy.n, g.plotSeries sub t_now))
      = ((PyQtGraphWidget.init w junk2).deliverAll samples).map
        (fun g => (g.xy.n, g.xy.data.take g.xy.n, g.plotSeries sub t_now)) := by
  have habs : (SlidingWindow.mk0 w junk1 : SlidingWindow (α × β)).stateAbs
      = (SlidingWindow.mk0 w junk2 : SlidingWindow (α × β)).stateAbs := by
    simp [SlidingWindow.stateAbs, SlidingWindow.mk0, hlen]
  have hall := SlidingWindow.appendAll_congr samples (SlidingWindow.mk0 w junk1)
    (SlidingWindow.mk0 w junk2) habs
  rw [MatplotlibGraphWidget.deliverAll_eq_appendAll_mpl, PyQtGraphWidget.deliverAll_eq_appendAll_pg]
  have hxy1 : (MatplotlibGraphWidget.init w junk1 : MatplotlibGraphWidget α β).xy
      = SlidingWindow.mk0 w junk1 := rfl
  have hxy2 : (PyQtGraphWidget.init w junk2 : PyQtGraphWidget α β).xy
      = SlidingWindow.mk0 w junk2 := rfl
  rw [hxy1, hxy2]
  cases h1 : (SlidingWindow.mk0 w junk1 : SlidingWindow (α × β)).appendAll samples with
  | error e =>
    cases h2 : (SlidingWindow.mk0 w junk2 : SlidingWindow (α × β)).appendAll samples with
    | error e2 =>
      rw [h1, h2] at hall
      simp only [Except.map] at hall
      injection hall with he
      simp only [Except.map]
      rw [he]
    | ok t2 =>
      rw [h1, h2] at hall
      simp only [Except.map] at hall
      exact Except.noConfusion hall
  | ok t1 =>
    cases h2 : (SlidingWindow.mk0 w junk2 : SlidingWindow (α × β)).appendAll samples with
    | error e2 =>
      rw [h1, h2] at hall
      simp only [Except.map] at hall
      exact Except.noConfusion hall
    | ok t2 =>
      rw [h1, h2] at hall
      simp only [Except.map, Except.ok.injEq] at hall
      have ht : t1.data.take t1.n = t2.data.take t2.n :=
        congrArg (fun p : Nat × Nat × Nat × List (α × β) => p.2.2.2) hall
      have hn : t1.n = t2.n :=
        congrArg (fun p : Nat × Nat × Nat × List (α × β) => p.1) hall
      have hwin := SlidingWindow.window_congr t1 t2 hall
      simp only [Except.map, MatplotlibGraphWidget.plotSeries, PyQtGraphWidget.plotSeries]
      rw [ht, hwin, hn]

/-- C8, witness: same five samples delivered to both widgets with different
uninitialised buffer contents of equal capacity. -/
theorem graph_widgets_equivalent_instance :
    ((MatplotlibGraphWidget.init 2
        [((0 : Int), (0 : Int)), (0, 0), (0, 0), (0, 0)]).deliverAll
        [(1, 10), (2, 20), (3, 30), (4, 40), (5, 50)]).map
        (fun g => (g.xy.n, g.xy.data.take g.xy.n, g.plotSeries (fun a b => a - b) 100))
      = ((PyQtGraphWidget.init 2
        [((9 : Int), (9 : Int)), (9, 9), (9, 9), (9, 9)]).deliverAll
        [(1, 10), (2, 20), (3, 30), (4, 40), (5, 50)]).map
        (fun g => (g.xy.n, g.xy.data.take g.xy.n, g.plotSeries (fun a b => a - b) 100)) :=
  graph_widgets_equivalent 2 [(0, 0), (0, 0), (0, 0), (0, 0)]
    [(9, 9), (9, 9), (9, 9), (9, 9)] (fun a b => a - b)
    [(1, 10), (2, 20), (3, 30), (4, 40), (5, 50)] 100 rfl

/-- C2: for a SlidingWindow with `window_size = 3` and `buffer_size = 6`
(arbitrary uninitialised buffer contents), after appending
(1,10),(2,20),(3,30),(4,40),(5,50) the count `n` is 5 < 6 (no compaction yet)
and `window()` is [(3,30),(4,40),(5,50)]; after appending (6,60) the buffer is
full, so the append of (7,70) triggers compaction before the 7th value is
stored, and `window()` then returns [(5,50),(6,60),(7,70)]. -/
theorem sliding_window_end_to_end_scenario (j1 j2 j3 j4 j5 j6 : Int × Int) :
    ∃ s5 s6 s7 : SlidingWindow (Int × Int),
      (SlidingWindow.mk0 3 [j1, j2, j3, j4, j5, j6]).appendAll
          [(1, 10), (2, 20), (3, 30), (4, 40), (5, 50)] = Except.ok s5
      ∧ s5.n = 5 ∧ s5.compactionPending = false
      ∧ s5.window = [(3, 30), (4, 40), (5, 50)]
      ∧ s5.append (6, 60) = Except.ok s6
      ∧ s6.compactionPending = true
      ∧ s6.append (7, 70) = Except.ok s7
      ∧ s7.window = [(5, 50), (6, 60), (7, 70)] := by
  refine ⟨⟨[(1, 10), (2, 20), (3, 30), (4, 40), (5, 50), j6], 5, 3⟩,
    ⟨[(1, 10), (2, 20), (3, 30), (4, 40), (5, 50), (6, 60)], 6, 3⟩,
    ⟨[(5, 50), (6, 60), (7, 70), (4, 40), (5, 50), (6, 60)], 3, 3⟩,
    rfl, rfl, rfl, rfl, rfl, rfl, rfl, rfl⟩

/-- C4 counterexample: constructing a SlidingWindow with `window_size = 0`
(a non-positive window size, default buffer) is NOT rejected: `__init__`
performs no validation and `np.empty(0)` succeeds, so construction returns
normally with an empty buffer. -/
theorem construction_accepts_zero_window_size :
    slidingWindowNew 0 Option.none = Except.ok (0, 0) := rfl

/-- C4 amended: construction does not validate `window_size`; the only
construction-time failure is the buffer allocation, so for every
`window_size < 0` with the default `buffer_size` (= 10 * window_size, which is
then negative) construction raises the allocation error. -/
theorem construction_rejects_negative_window_size (ws : Int) (h : ws < 0) :
    slidingWindowNew ws Option.none
      = Except.error "negative dimensions are not allowed" := by
  have hbs : (Option.none : Option Int).getD (10 * ws) = 10 * ws := rfl
  simp only [slidingWindowNew, npEmptySize, hbs]
  rw [if_pos (by omega : (10 : Int) * ws < 0)]
  rfl

/-- C4 amended, witness at `window_size = -1`. -/
theorem construction_rejects_negative_window_size_instance :
    slidingWindowNew (-1) Option.none
      = Except.error "negative dimensions are not allowed" :=
  construction_rejects_negative_window_size (-1) (by decide)

/-- C5 (code bug): with `window_size = 1` and `buffer_size = 2` (a valid
construction, buffer_size = 2 * window_size), the third append finds the
buffer full and executes `data[:0] = data[-0:]`; since `data[-0:]` is the
whole length-2 array, numpy cannot broadcast it into the empty destination
slice and raises ValueError — `append` fails under valid construction. -/
theorem append_fails_window_size_one :
    (SlidingWindow.mk0 1 ([7, 7] : List Int)).appendAll [1, 2, 3]
      = Except.error "could not broadcast input array" := rfl

/-- C7: `window()` is pure and idempotent: its body (line 82) is a single
`return` of a slice, so invoking it leaves the buffer state (both `n` and the
stored entries) unchanged, and a repeated invocation with no intervening
`append` returns identical content. -/
theorem window_idempotent_and_pure (s : SlidingWindow α) :
    s.windowOp.2 = s ∧ s.windowOp.2.windowOp.1 = s.windowOp.1
      ∧ s.windowOp.1 = s.window :=
  ⟨rfl, rfl, rfl⟩

/-- C9: the interruption flag is checked at the top of every loop iteration,
so (a) after the owner sets the flag the worker emits at most one further
sample along any interleaving of owner/worker events, (b) once `run` has
returned (the state `wait()` observes) no further sample is ever emitted, and
(c) with the flag set the worker reaches the terminated position within three
steps of its own. -/
theorem worker_stop_protocol (s : WorkerState) (evs : List WorkerEvent)
    (h : s.flag = true) :
    (runEvents s evs).emitted ≤ s.emitted + 1
    ∧ (s.pos = WorkerPos.done →
        (runEvents s evs).pos = WorkerPos.done
        ∧ (runEvents s evs).emitted = s.emitted)
    ∧ (workerStep (workerStep (workerStep s))).pos = WorkerPos.done := by
  refine ⟨?_, fun hd => runEvents_done evs s hd, ?_⟩
  · have hbound := runEvents_emitted_bound evs s h
    have hb : (if s.pos = WorkerPos.emit then 1 else 0) ≤ 1 := by split <;> omega
    omega
  · obtain ⟨pos, flag, em⟩ := s
    have hf : flag = true := h
    subst hf
    cases pos <;> rfl

/-- C9, witness: the worker is mid-iteration (at the emission statement) when
the flag is set; it emits exactly one further sample and terminates. -/
theorem worker_stop_protocol_instance :
    (runEvents ⟨WorkerPos.emit, true, 5⟩
        [WorkerEvent.workerStep, WorkerEvent.workerStep, WorkerEvent.workerStep]).emitted
      ≤ 5 + 1
    ∧ ((⟨WorkerPos.emit, true, 5⟩ : WorkerState).pos = WorkerPos.done →
        (runEvents ⟨WorkerPos.emit, true, 5⟩
            [WorkerEvent.workerStep, WorkerEvent.workerStep, WorkerEvent.workerStep]).pos
          = WorkerPos.done
        ∧ (runEvents ⟨WorkerPos.emit, true, 5⟩
            [WorkerEvent.workerStep, WorkerEvent.workerStep, WorkerEvent.workerStep]).emitted
          = 5)
    ∧ (workerStep (workerStep (workerStep ⟨WorkerPos.emit, true, 5⟩))).pos
        = WorkerPos.done :=
  worker_stop_protocol ⟨WorkerPos.emit, true, 5⟩
    [WorkerEvent.workerStep, WorkerEvent.workerStep, WorkerEvent.workerStep] rfl

/-- C10: redraw with an empty window is safe: both widgets invoke
`updateGraph` once at construction, before any sample has arrived; with
`n = 0`, `window()` returns the empty slice, the transformed `(Δt, value)`
series pushed to the plot surface is empty, and the duration title is set. -/
theorem empty_window_redraw_safe (w : Nat) (junk1 junk2 : List (α × β))
    (sub : α → α → α) (t_now : α) (d : String) :
    (MatplotlibGraphWidget.init w junk1 : MatplotlibGraphWidget α β).xy.window = []
    ∧ (MatplotlibGraphWidget.init w junk1 : MatplotlibGraphWidget α β).updateGraph
        sub t_now d = ([], "matplotlib: " ++ d ++ " ms")
    ∧ (PyQtGraphWidget.init w junk2 : PyQtGraphWidget α β).xy.window = []
    ∧ (PyQtGraphWidget.init w junk2 : PyQtGraphWidget α β).updateGraph
        sub t_now d = ([], "pyqtgraph: " ++ d ++ " ms") := by
  refine ⟨?_, ?_, ?_, ?_⟩ <;>
    simp [MatplotlibGraphWidget.init, PyQtGraphWidget.init,
      MatplotlibGraphWidget.updateGraph, PyQtGraphWidget.updateGraph,
      MatplotlibGraphWidget.plotSeries, PyQtGraphWidget.plotSeries,
      SlidingWindow.window, SlidingWindow.mk0]

end PyQtGraphing
